import Mathlib

/-!
# rmdm: rate-limit-aware deletion of direct messages

A shallow embedding of `main.go`.  The program talks to a remote HTTP API and
prints, logs and sleeps; the embedding makes those effects explicit:

* every function returns, next to its Go result, the list of `Event`s it
  performed, in program order;
* the remote API is a `Remote`: the answer to the `n`-th GET of the run, and,
  for the `b`-th batch of concurrent deletions, the answer carried by the
  `j`-th outcome that arrives on the response channel.  The program is
  deterministic given these answers, so quantifying over every `Remote`
  covers every behaviour of the API and every arrival order of a batch;
* the two unbounded `for { }` loops (`deleteDMs` and `main`) take a number of
  iterations they may run; the result `none` means that the loop is still
  running after that many iterations.
-/

namespace Rmdm

/-! ## Data model -/

/-- A `*http.Client`, named by its position among the clients that were made. -/
abbrev Client := Nat

/-- A Go `error` value: `none` is `nil`, `some m` an error with message `m`. -/
abbrev GoError := Option String

/-- The struct `DM`: one decoded direct message. -/
structure DM where
  Id : Int
  deriving DecidableEq, Repr

/-- The type `Key`: the lines of one credential. -/
abbrev Key := List String

/-- The struct `RateErrResponse`: what one deletion goroutine sends on the channel. -/
structure RateErrResponse where
  rate : Bool
  err : GoError
  deriving DecidableEq, Repr

/-- What `json.NewDecoder(resp.Body).Decode(&dms)` yields for a response body. -/
inductive Body where
  | malformed (e : String)
  | dms (l : List DM)
  deriving DecidableEq, Repr

/-- What `c.Get` yields: a transport error, or a response with its status code and body. -/
inductive GetResult where
  | transportErr (e : String)
  | response (status : Nat) (body : Body)
  deriving DecidableEq, Repr

/-- What `c.PostForm` yields: a transport error, or a response with its status code. -/
inductive PostResult where
  | transportErr (e : String)
  | response (status : Nat)
  deriving DecidableEq, Repr

/-- The behaviour of the remote API during one run. -/
structure Remote where
  /-- The answer to the `n`-th GET request of the run (counted from 0). -/
  get : Nat → GetResult
  /-- The answer carried by the `j`-th outcome to arrive on the response
  channel of the `b`-th batch (both counted from 0). -/
  post : Nat → Nat → PostResult

/-- How many GET requests and how many batches the run has issued so far. -/
structure Sys where
  gets : Nat
  batches : Nat
  deriving DecidableEq, Repr

/-- The observable actions of the program. -/
inductive Event where
  /-- A line written by `fmt.Println`. -/
  | print (line : String)
  /-- A message written by `log.Println`. -/
  | log (line : String)
  /-- The GET request of `getDMIds(endpoint, maxId, c)`. -/
  | fetch (endpoint : String) (maxId : Int) (c : Client)
  /-- The goroutine `go func(id)` that runs `deleteDM(id, c)`. -/
  | delete (id : Int) (c : Client)
  /-- One receive `r := <-responseC`. -/
  | recv (r : RateErrResponse)
  /-- The call `time.Sleep(time.Minute * minutes)`. -/
  | sleep (minutes : Nat)
  /-- The call `log.Fatalln`, which ends the process. -/
  | fatal (msg : String)
  deriving DecidableEq, Repr

/-- Put the events `pre` in front of the events of a run. -/
def after {α : Type} (pre : List Event) (x : α × Sys × List Event) : α × Sys × List Event :=
  (x.1, x.2.1, pre ++ x.2.2)

/-- The text `%v` gives for an `error` value. -/
def fmtV : GoError → String
  | none => "<nil>"
  | some m => m

/-- The error built by `fmt.Errorf("twitter(/1.1/direct_messages.json) status code: %d", code)`. -/
def statusErr (code : Nat) : String :=
  "twitter(/1.1/direct_messages.json) status code: " ++ toString code

/-! ## Reading the keys file -/

/-- The regular expression `noTextRegexp`, that is `^[ \t]*$`: only blanks and tabs. -/
def noText (line : String) : Bool :=
  line.data.all (fun ch => ch == ' ' || ch == Char.ofNat 9)

/-- The keys file as `getKeys` sees it. -/
inductive KeysFile where
  /-- The call `os.Open` fails. -/
  | missing
  /-- The values `ReadLine` returns, in order, then `io.EOF` (`none`) or another read
  error.  The loop discards the `isPrefix` result, so a text line longer than the buffer
  of the reader arrives as several values, each handled as a line of its own. -/
  | content (lines : List String) (readErr : GoError)
  deriving DecidableEq, Repr

/-- The `for` loop of `getKeys` over the values `ReadLine` returns, with its variables
`key` and `keys`. -/
def getKeysLoop : List String → Key → List Key → List Key
  | [], _, keys => keys
  | line :: rest, key, keys =>
    if !noText line then
      let key := key ++ [line]
      if key.length = 4 then
        getKeysLoop rest key (keys ++ [key])
      else
        getKeysLoop rest key keys
    else
      getKeysLoop rest [] keys

/-- The function `getKeys`: the keys, or the message of the fatal error. -/
def getKeys : KeysFile → Except String (List Key)
  | .missing => .error "keys file not found"
  | .content _ (some e) => .error e
  | .content lines none => .ok (getKeysLoop lines [] [])

/-- The `for` loop of `makeClients`; `mk` stands for `oauth.NewConsumer` followed by
`consumer.MakeHttpClient` (library code) applied to `key[0]`, `key[1]`, `key[2]`, `key[3]`. -/
def makeClientsLoop (mk : String → String → String → String → Except String Client) :
    List Key → List Client → Except String (List Client)
  | [], clients => .ok clients
  | key :: rest, clients =>
    match mk (key.getD 0 "") (key.getD 1 "") (key.getD 2 "") (key.getD 3 "") with
    | .error e => .error e
    | .ok client => makeClientsLoop mk rest (clients ++ [client])

/-- The function `makeClients`: the clients, or the message of the fatal error. -/
def makeClients (mk : String → String → String → String → Except String Client)
    (file : KeysFile) : Except String (List Client) :=
  match getKeys file with
  | .error e => .error e
  | .ok keys => makeClientsLoop mk keys []

/-! ## Fetching a page and deleting one message -/

/-- The function `getDMIds`: one GET request, answered by `R.get`. -/
def getDMIds (R : Remote) (endpoint : String) (maxId : Int) (c : Client) (s : Sys) :
    (Bool × List Int × GoError) × Sys × List Event :=
  let s1 : Sys := { s with gets := s.gets + 1 }
  let ev := [Event.fetch endpoint maxId c]
  match R.get s.gets with
  | .transportErr e => ((false, [], some e), s1, ev)
  | .response status body =>
    if status = 429 then ((true, [], none), s1, ev)
    else if status ≠ 200 then ((false, [], some (statusErr status)), s1, ev)
    else
      match body with
      | .malformed e => ((false, [], some e), s1, ev)
      | .dms l => ((false, l.map DM.Id, none), s1, ev)

/-- The function `deleteDM`, applied to the answer its POST request gets. -/
def deleteDM : PostResult → Bool × GoError
  | .transportErr e => (false, some e)
  | .response status =>
    if status = 429 then (true, none)
    else if status ≠ 200 then (false, some (statusErr status))
    else (false, none)

/-- The value a deletion goroutine sends: `RateErrResponse{rate, err}`. -/
def sendOutcome (p : PostResult) : RateErrResponse :=
  ⟨(deleteDM p).1, (deleteDM p).2⟩

/-! ## Draining one endpoint -/

/-- The loop `for ; l > 0; l--` of `deleteDMs` over the response channel: `chan j` is
the `j`-th value to arrive, `err` is the variable `err` of the enclosing function, `j`
counts the values received so far.  `some r` is a `return` out of `deleteDMs`, `none`
the end of the loop. -/
def recvLoop (chan : Nat → RateErrResponse) (err : GoError) :
    Nat → Nat → Option (Bool × GoError) × List Event
  | 0, _ => (none, [])
  | l + 1, j =>
    let r := chan j
    if r.err ≠ none then
      ((recvLoop chan err l (j + 1)).1,
        Event.recv r :: Event.log ("DM delete err: " ++ fmtV err) ::
          (recvLoop chan err l (j + 1)).2)
    else if r.rate then
      (some (r.rate, none), [Event.recv r])
    else
      ((recvLoop chan err l (j + 1)).1, Event.recv r :: (recvLoop chan err l (j + 1)).2)

/-- The function `deleteDMs`; the first argument bounds the iterations of its `for`. -/
def deleteDMs (R : Remote) : Nat → String → Int → Client → Sys →
    Option (Bool × GoError) × Sys × List Event
  | 0, _, _, _, s => (none, s, [])
  | fuel + 1, endpoint, maxId, c, s =>
    let f := getDMIds R endpoint maxId c s
    let rate := f.1.1
    let ids := f.1.2.1
    let err := f.1.2.2
    let s1 := f.2.1
    let ev1 := Event.print ("scanning for " ++ endpoint) :: f.2.2
    if rate || err ≠ none then
      (some (rate, err), s1, ev1)
    else
      let l := ids.length
      if l > 0 then
        let ev2 := ev1 ++ [Event.print (toString l ++ " DMs will be deleted")] ++
          ids.map (fun id => Event.delete id c)
        let s2 : Sys := { s1 with batches := s1.batches + 1 }
        let w := recvLoop (fun j => sendOutcome (R.post s1.batches j)) err l 0
        match w.1 with
        | some r => (some r, s2, ev2 ++ w.2)
        | none =>
          after (ev2 ++ w.2 ++ [Event.print "deleted"]) (deleteDMs R fuel endpoint maxId c s2)
      else
        (some (false, none), s1, ev1 ++ [Event.print "there is no DMs to delete"])

/-! ## The run controller -/

/-- How one pass over the clients ends. -/
inductive Pass where
  /-- The statement `break LOOP`. -/
  | allClear
  /-- The call `log.Fatalln(err)`. -/
  | fatal (msg : String)
  /-- The `for ... range clients` loop ran to its end. -/
  | fallThrough
  /-- A call of `deleteDMs` is still running. -/
  | running
  deriving DecidableEq, Repr

/-- The loop `for _, client := range clients` of `main`. -/
def clientLoop (R : Remote) (fuel : Nat) : List Client → Sys → Pass × Sys × List Event
  | [], s => (.fallThrough, s, [])
  | client :: rest, s =>
    let d1 := deleteDMs R fuel "direct_messages" 0 client s
    match d1.1 with
    | none => (.running, d1.2.1, d1.2.2)
    | some (_, some e) => (.fatal e, d1.2.1, d1.2.2 ++ [Event.fatal e])
    | some (true, none) => after d1.2.2 (clientLoop R fuel rest d1.2.1)
    | some (false, none) =>
      let d2 := deleteDMs R fuel "direct_messages/sent" 0 client d1.2.1
      match d2.1 with
      | none => (.running, d2.2.1, d1.2.2 ++ d2.2.2)
      | some (_, some e) => (.fatal e, d2.2.1, d1.2.2 ++ d2.2.2 ++ [Event.fatal e])
      | some (true, none) => after (d1.2.2 ++ d2.2.2) (clientLoop R fuel rest d2.2.1)
      | some (false, none) =>
        (.allClear, d2.2.1, d1.2.2 ++ d2.2.2 ++ [Event.print "all clear shuting down"])

/-- How the process ends. -/
inductive Exit where
  /-- The function `main` returns. -/
  | done
  /-- The call `log.Fatalln` ends the process with this message. -/
  | fatal (msg : String)
  deriving DecidableEq, Repr

/-- The labelled loop `LOOP: for { ... }` of `main`: `passes` bounds its iterations and
`fuel` those of every `deleteDMs` call. -/
def mainLoop (R : Remote) (clients : List Client) (fuel : Nat) :
    Nat → Sys → Option Exit × Sys × List Event
  | 0, s => (none, s, [])
  | passes + 1, s =>
    let p := clientLoop R fuel clients s
    match p.1 with
    | .allClear => (some .done, p.2.1, p.2.2)
    | .fatal e => (some (.fatal e), p.2.1, p.2.2)
    | .running => (none, p.2.1, p.2.2)
    | .fallThrough =>
      after (p.2.2 ++ [Event.print "all apps are rate limited, will run again after 16m",
          Event.sleep 16])
        (mainLoop R clients fuel passes p.2.1)

/-- The function `main`. -/
def main (mk : String → String → String → String → Except String Client) (file : KeysFile)
    (R : Remote) (fuel passes : Nat) : Option Exit × Sys × List Event :=
  match makeClients mk file with
  | .error e => (some (.fatal e), ⟨0, 0⟩, [Event.fatal e])
  | .ok clients =>
    after [Event.print ("total apps: " ++ toString clients.length)]
      (mainLoop R clients fuel passes ⟨0, 0⟩)


/-! ## Observers on event lists -/

/-- Is the event a GET request of `getDMIds`? -/
def Event.isFetch : Event → Bool
  | .fetch _ _ _ => true
  | _ => false

/-- Is the event a receive from the response channel? -/
def Event.isRecv : Event → Bool
  | .recv _ => true
  | _ => false

/-- Is the event a call of `time.Sleep`? -/
def Event.isSleep : Event → Bool
  | .sleep _ => true
  | _ => false

/-- Is the event the launch of a deletion goroutine? -/
def Event.isDelete : Event → Bool
  | .delete _ _ => true
  | _ => false

/-- The events of one page up to the receive loop: the scan line, the GET request, the
count line and one goroutine per identifier. -/
def pageHead (endpoint : String) (maxId : Int) (c : Client) (l : List DM) : List Event :=
  [Event.print ("scanning for " ++ endpoint), Event.fetch endpoint maxId c,
    Event.print (toString l.length ++ " DMs will be deleted")] ++
    (l.map DM.Id).map (fun id => Event.delete id c)

/-! ## Predicates used to state the properties -/

/-- A pass in which every client is rate-limited: from state `s`, each client of the
list, in order, gets `(true, nil)` from `deleteDMs` on "direct_messages", or `(false, nil)`
there and `(true, nil)` on "direct_messages/sent"; the pass ends in state `t` having
performed the events `ev`. -/
inductive RatePass (R : Remote) (fuel : Nat) : List Client → Sys → Sys → List Event → Prop
  | nil (s : Sys) : RatePass R fuel [] s s []
  | received (c : Client) (cs : List Client) (s s1 t : Sys) (e1 e : List Event) :
      deleteDMs R fuel "direct_messages" 0 c s = (some (true, none), s1, e1) →
      RatePass R fuel cs s1 t e →
      RatePass R fuel (c :: cs) s t (e1 ++ e)
  | sent (c : Client) (cs : List Client) (s s1 s2 t : Sys) (e1 e2 e : List Event) :
      deleteDMs R fuel "direct_messages" 0 c s = (some (false, none), s1, e1) →
      deleteDMs R fuel "direct_messages/sent" 0 c s1 = (some (true, none), s2, e2) →
      RatePass R fuel cs s2 t e →
      RatePass R fuel (c :: cs) s t (e1 ++ e2 ++ e)

/-- The blocks of a keys file, in the words of the specification, taken over the values
`ReadLine` returns: the maximal runs of consecutive non-blank values; `cur` is the run
being read. -/
def blocksFrom : List String → List String → List (List String)
  | [], cur => [cur]
  | line :: rest, cur =>
    if noText line then cur :: blocksFrom rest [] else blocksFrom rest (cur ++ [line])

/-- The blocks of consecutive non-blank values among those `ReadLine` returns. -/
def blocksOf (lines : List String) : List (List String) :=
  blocksFrom lines []

/-! ## Concrete remotes and inputs used to instantiate the theorems -/

/-- A 200 response whose body decodes to the given identifiers. -/
def pageOf (ids : List Int) : GetResult :=
  .response 200 (.dms (ids.map DM.mk))

/-- The first GET returns the page `[1, 2]`, later ones the empty page; in every batch
the first outcome to arrive is a 500 and the second a 429. -/
def remoteErrThenRate : Remote where
  get := fun n => if n = 0 then pageOf [1, 2] else pageOf []
  post := fun _ j => if j = 0 then .response 500 else .response 429

/-- The first GET returns the page `[1, 2]`, later ones the empty page; in every batch
the first outcome to arrive is a 429, the others are successes. -/
def remoteRateFirst : Remote where
  get := fun n => if n = 0 then pageOf [1, 2] else pageOf []
  post := fun _ j => if j = 0 then .response 429 else .response 200

/-- Every GET returns the page `[1, 2]` and every deletion gets a 500. -/
def remoteSamePageAllFail : Remote where
  get := fun _ => pageOf [1, 2]
  post := fun _ _ => .response 500

/-- The first GET returns the page `[5]`, later ones the empty page; the deletion
gets a 500. -/
def remoteOneFailure : Remote where
  get := fun n => if n = 0 then pageOf [5] else pageOf []
  post := fun _ _ => .response 500

/-- The first GET returns the page `[1, 2, 3]`, later ones the empty page; every
deletion succeeds. -/
def remoteOnePage : Remote where
  get := fun n => if n = 0 then pageOf [1, 2, 3] else pageOf []
  post := fun _ _ => .response 200

/-- The pages of `remoteOnePage` by fetch number. -/
def onePage : Nat → List DM :=
  fun i => if i = 0 then [⟨1⟩, ⟨2⟩, ⟨3⟩] else []

/-- The first GET gets a 429, the later ones return the empty page. -/
def remoteRateThenEmpty : Remote where
  get := fun n => if n = 0 then .response 429 (.dms []) else pageOf []
  post := fun _ _ => .response 200

/-- The second GET returns the empty page, every other GET gets a 429. -/
def remoteRateAround : Remote where
  get := fun n => if n = 1 then pageOf [] else .response 429 (.dms [])
  post := fun _ _ => .response 200

/-- The first GET returns the empty page, the second gets a 500. -/
def remoteEmptyThen500 : Remote where
  get := fun n => if n = 0 then pageOf [] else .response 500 (.malformed "")
  post := fun _ _ => .response 200

/-- A stand-in for the library call that makes a client: it always succeeds. -/
def mkAlways : String → String → String → String → Except String Client :=
  fun _ _ _ _ => .ok 0

/-! ## Basic facts -/

@[simp] theorem after_fst {α : Type} (pre : List Event) (x : α × Sys × List Event) :
    (after pre x).1 = x.1 := rfl

@[simp] theorem after_sys {α : Type} (pre : List Event) (x : α × Sys × List Event) :
    (after pre x).2.1 = x.2.1 := rfl

@[simp] theorem after_events {α : Type} (pre : List Event) (x : α × Sys × List Event) :
    (after pre x).2.2 = pre ++ x.2.2 := rfl

theorem getDMIds_sys (R : Remote) (endpoint : String) (maxId : Int) (c : Client) (s : Sys) :
    (getDMIds R endpoint maxId c s).2.1 = ⟨s.gets + 1, s.batches⟩ := by
  unfold getDMIds
  cases R.get s.gets with
  | transportErr e => rfl
  | response status body =>
    by_cases h1 : status = 429
    · simp [h1]
    · by_cases h2 : status = 200
      · cases body <;> simp [h2]
      · simp [h1, h2]

theorem getDMIds_events (R : Remote) (endpoint : String) (maxId : Int) (c : Client) (s : Sys) :
    (getDMIds R endpoint maxId c s).2.2 = [Event.fetch endpoint maxId c] := by
  unfold getDMIds
  cases R.get s.gets with
  | transportErr e => rfl
  | response status body =>
    by_cases h1 : status = 429
    · simp [h1]
    · by_cases h2 : status = 200
      · cases body <;> simp [h2]
      · simp [h1, h2]

theorem getDMIds_page (R : Remote) (endpoint : String) (maxId : Int) (c : Client) (s : Sys)
    (l : List DM) (hget : R.get s.gets = .response 200 (.dms l)) :
    getDMIds R endpoint maxId c s =
      ((false, l.map DM.Id, none), ⟨s.gets + 1, s.batches⟩, [Event.fetch endpoint maxId c]) := by
  simp [getDMIds, hget]

/-- One iteration of `deleteDMs` on a non-empty page. -/
theorem deleteDMs_page (R : Remote) (fuel : Nat) (endpoint : String) (maxId : Int)
    (c : Client) (s : Sys) (l : List DM) (hget : R.get s.gets = .response 200 (.dms l))
    (hne : l ≠ []) :
    deleteDMs R (fuel + 1) endpoint maxId c s =
      match (recvLoop (fun j => sendOutcome (R.post s.batches j)) none l.length 0).1 with
      | some r => (some r, ⟨s.gets + 1, s.batches + 1⟩,
          pageHead endpoint maxId c l ++
            (recvLoop (fun j => sendOutcome (R.post s.batches j)) none l.length 0).2)
      | none => after (pageHead endpoint maxId c l ++
            (recvLoop (fun j => sendOutcome (R.post s.batches j)) none l.length 0).2 ++
            [Event.print "deleted"])
          (deleteDMs R fuel endpoint maxId c ⟨s.gets + 1, s.batches + 1⟩) := by
  have hpos : 0 < l.length := List.length_pos.mpr hne
  simp only [deleteDMs, getDMIds_page R endpoint maxId c s l hget, pageHead]
  simp [hpos]

/-- One iteration of `deleteDMs` on an empty page. -/
theorem deleteDMs_empty (R : Remote) (fuel : Nat) (endpoint : String) (maxId : Int)
    (c : Client) (s : Sys) (hget : R.get s.gets = .response 200 (.dms [])) :
    deleteDMs R (fuel + 1) endpoint maxId c s =
      (some (false, none), ⟨s.gets + 1, s.batches⟩,
        [Event.print ("scanning for " ++ endpoint), Event.fetch endpoint maxId c,
          Event.print "there is no DMs to delete"]) := by
  simp [deleteDMs, getDMIds_page R endpoint maxId c s [] hget]


theorem sendOutcome_rate_iff (p : PostResult) :
    sendOutcome p = ⟨true, none⟩ ↔ p = .response 429 := by
  cases p with
  | transportErr e => simp [sendOutcome, deleteDM]
  | response status =>
    by_cases h1 : status = 429
    · simp [sendOutcome, deleteDM, h1]
    · by_cases h2 : status = 200
      · simp [sendOutcome, deleteDM, h2]
      · simp [sendOutcome, deleteDM, h1, h2]

theorem recvLoop_filter_fetch (chan : Nat → RateErrResponse) (err : GoError) :
    ∀ l j, (recvLoop chan err l j).2.filter Event.isFetch = [] := by
  intro l
  induction l with
  | zero => intro j; rfl
  | succ l ih =>
    intro j
    unfold recvLoop
    by_cases h1 : (chan j).err ≠ none
    · simp [h1, Event.isFetch, ih]
    · by_cases h2 : (chan j).rate = true
      · simp [h1, h2, Event.isFetch]
      · simp [h1, h2, Event.isFetch, ih]

theorem recvLoop_filter_sleep (chan : Nat → RateErrResponse) (err : GoError) :
    ∀ l j, (recvLoop chan err l j).2.filter Event.isSleep = [] := by
  intro l
  induction l with
  | zero => intro j; rfl
  | succ l ih =>
    intro j
    unfold recvLoop
    by_cases h1 : (chan j).err ≠ none
    · simp [h1, Event.isSleep, ih]
    · by_cases h2 : (chan j).rate = true
      · simp [h1, h2, Event.isSleep]
      · simp [h1, h2, Event.isSleep, ih]

theorem recvLoop_filter_delete (chan : Nat → RateErrResponse) (err : GoError) :
    ∀ l j, (recvLoop chan err l j).2.filter Event.isDelete = [] := by
  intro l
  induction l with
  | zero => intro j; rfl
  | succ l ih =>
    intro j
    unfold recvLoop
    by_cases h1 : (chan j).err ≠ none
    · simp [h1, Event.isDelete, ih]
    · by_cases h2 : (chan j).rate = true
      · simp [h1, h2, Event.isDelete]
      · simp [h1, h2, Event.isDelete, ih]

/-- The receive loop stops at the first value `⟨true, nil⟩`: it has then received
exactly the values up to and including that one. -/
theorem recvLoop_first_rate (chan : Nat → RateErrResponse) (err : GoError) :
    ∀ i l j, i < l → chan (j + i) = ⟨true, none⟩ →
      (∀ k, k < i → chan (j + k) ≠ ⟨true, none⟩) →
      (recvLoop chan err l j).1 = some (true, none) ∧
        ((recvLoop chan err l j).2.filter Event.isRecv).length = i + 1 := by
  intro i
  induction i with
  | zero =>
    intro l j hl hi _
    obtain ⟨l, rfl⟩ : ∃ l', l = l' + 1 := ⟨l - 1, by omega⟩
    unfold recvLoop
    simp only [Nat.add_zero] at hi
    simp [hi, Event.isRecv]
  | succ i ih =>
    intro l j hl hi hfirst
    obtain ⟨l, rfl⟩ : ∃ l', l = l' + 1 := ⟨l - 1, by omega⟩
    have h0 : chan j ≠ ⟨true, none⟩ := by simpa using hfirst 0 (Nat.succ_pos i)
    have hrec := ih l (j + 1) (by omega) (by rw [← hi]; congr 1; omega)
      (fun k hk => by
        have := hfirst (k + 1) (by omega)
        rwa [show j + (k + 1) = j + 1 + k by omega] at this)
    unfold recvLoop
    by_cases h1 : (chan j).err ≠ none
    · simp [h1, Event.isRecv, hrec.1, hrec.2]
    · have h2 : (chan j).rate = false := by
        cases hr : (chan j).rate with
        | false => rfl
        | true =>
          exfalso; apply h0
          have he : (chan j).err = none := by simpa using h1
          cases hc : chan j with
          | mk rate e => rw [hc] at hr he; simp at hr he; simp [hr, he]
      simp [h1, h2, Event.isRecv, hrec.1, hrec.2]

/-- Without a value `⟨true, nil⟩` the receive loop receives all `l` values. -/
theorem recvLoop_no_rate (chan : Nat → RateErrResponse) (err : GoError) :
    ∀ l j, (∀ k, k < l → chan (j + k) ≠ ⟨true, none⟩) →
      (recvLoop chan err l j).1 = none ∧
        ((recvLoop chan err l j).2.filter Event.isRecv).length = l := by
  intro l
  induction l with
  | zero => intro j _; exact ⟨rfl, rfl⟩
  | succ l ih =>
    intro j hno
    have h0 : chan j ≠ ⟨true, none⟩ := by simpa using hno 0 (Nat.succ_pos l)
    have hrec := ih (j + 1) (fun k hk => by
        have := hno (k + 1) (by omega)
        rwa [show j + (k + 1) = j + 1 + k by omega] at this)
    unfold recvLoop
    by_cases h1 : (chan j).err ≠ none
    · simp [h1, Event.isRecv, hrec.1, hrec.2]
    · have h2 : (chan j).rate = false := by
        cases hr : (chan j).rate with
        | false => rfl
        | true =>
          exfalso; apply h0
          have he : (chan j).err = none := by simpa using h1
          cases hc : chan j with
          | mk rate e => rw [hc] at hr he; simp at hr he; simp [hr, he]
      simp [h1, h2, Event.isRecv, hrec.1, hrec.2]

/-- When every value carries an error, the receive loop logs once per value and ends. -/
theorem recvLoop_all_err (chan : Nat → RateErrResponse) (err : GoError) :
    ∀ l j, (∀ k, k < l → (chan (j + k)).err ≠ none) →
      recvLoop chan err l j =
        (none, (List.range l).flatMap (fun k =>
          [Event.recv (chan (j + k)), Event.log ("DM delete err: " ++ fmtV err)])) := by
  intro l
  induction l with
  | zero => intro j _; rfl
  | succ l ih =>
    intro j hall
    have h0 : (chan j).err ≠ none := by simpa using hall 0 (Nat.succ_pos l)
    have hrec := ih (j + 1) (fun k hk => by
        have := hall (k + 1) (by omega)
        rwa [show j + (k + 1) = j + 1 + k by omega] at this)
    unfold recvLoop
    rw [if_pos h0, hrec]
    simp [List.range_succ_eq_map, List.flatMap_map, Function.comp_def,
      Nat.add_assoc, Nat.add_comm 1]


theorem recvLoop_rate (chan : Nat → RateErrResponse) (err : GoError) (l j : Nat)
    (hj : j < l) (hrate : chan j = ⟨true, none⟩) :
    (recvLoop chan err l 0).1 = some (true, none) := by
  have hex : ∃ i, chan i = ⟨true, none⟩ := ⟨j, hrate⟩
  have hle : Nat.find hex ≤ j := Nat.find_min' hex hrate
  refine (recvLoop_first_rate chan err (Nat.find hex) l 0 (by omega) ?_ ?_).1
  · simpa using Nat.find_spec hex
  · intro k hk
    simpa using Nat.find_min hex hk

/-- Every iteration of `deleteDMs` starts with the scan line and a GET request. -/
theorem deleteDMs_events_head (R : Remote) (fuel : Nat) (endpoint : String) (maxId : Int)
    (c : Client) (s : Sys) :
    ∃ rest, (deleteDMs R (fuel + 1) endpoint maxId c s).2.2 =
      Event.print ("scanning for " ++ endpoint) :: Event.fetch endpoint maxId c :: rest := by
  simp only [deleteDMs, getDMIds_events]
  split_ifs
  · exact ⟨_, rfl⟩
  · split
    · exact ⟨_, rfl⟩
    · exact ⟨_, rfl⟩
  · exact ⟨_, rfl⟩

theorem deleteDMs_filter_sleep (R : Remote) (endpoint : String) (maxId : Int) (c : Client) :
    ∀ fuel s, (deleteDMs R fuel endpoint maxId c s).2.2.filter Event.isSleep = [] := by
  intro fuel
  induction fuel with
  | zero => intro s; rfl
  | succ fuel ih =>
    intro s
    simp only [deleteDMs, getDMIds_events]
    split_ifs
    · simp [Event.isSleep]
    · split
      · simp [Event.isSleep, recvLoop_filter_sleep]
      · simp [Event.isSleep, recvLoop_filter_sleep, ih]
    · simp [Event.isSleep]


/-- One iteration of `deleteDMs` on a non-empty page whose deletions all fail. -/
theorem deleteDMs_page_all_err (R : Remote) (fuel : Nat) (endpoint : String)
    (maxId : Int) (c : Client) (s : Sys) (l : List DM)
    (hget : R.get s.gets = .response 200 (.dms l)) (hne : l ≠ [])
    (hfail : ∀ j, j < l.length → (deleteDM (R.post s.batches j)).2 ≠ none) :
    deleteDMs R (fuel + 1) endpoint maxId c s =
        after (pageHead endpoint maxId c l ++
            (List.range l.length).flatMap (fun j =>
              [Event.recv (sendOutcome (R.post s.batches j)),
                Event.log "DM delete err: <nil>"]) ++
            [Event.print "deleted"])
          (deleteDMs R fuel endpoint maxId c ⟨s.gets + 1, s.batches + 1⟩) := by
  have hall := recvLoop_all_err (fun k => sendOutcome (R.post s.batches k)) none l.length 0
    (fun k hk => by simpa [sendOutcome] using hfail k hk)
  rw [deleteDMs_page R fuel endpoint maxId c s l hget hne, hall]
  simp [fmtV]

theorem filter_fetch_pageHead (endpoint : String) (maxId : Int) (c : Client) (l : List DM) :
    (pageHead endpoint maxId c l).filter Event.isFetch = [Event.fetch endpoint maxId c] := by
  simp [pageHead, Event.isFetch, List.filter_map, Function.comp_def]

theorem filter_delete_pageHead (endpoint : String) (maxId : Int) (c : Client) (l : List DM) :
    (pageHead endpoint maxId c l).filter Event.isDelete =
      (l.map DM.Id).map (fun id => Event.delete id c) := by
  simp [pageHead, Event.isDelete, List.filter_map, Function.comp_def]

theorem deleteDMs_loops (R : Remote) (page : List DM) (hpage : page ≠ [])
    (hget : ∀ n, R.get n = .response 200 (.dms page))
    (hpost : ∀ b j, (deleteDM (R.post b j)).2 ≠ none) (endpoint : String) (maxId : Int)
    (c : Client) :
    ∀ n s, (deleteDMs R n endpoint maxId c s).1 = none ∧
      (deleteDMs R n endpoint maxId c s).2.2.filter Event.isFetch =
        List.replicate n (Event.fetch endpoint maxId c) := by
  intro n
  induction n with
  | zero => intro s; exact ⟨rfl, rfl⟩
  | succ n ih =>
    intro s
    rw [deleteDMs_page_all_err R n endpoint maxId c s page (hget _) hpage
      (fun j _ => hpost _ j)]
    refine ⟨by simpa using (ih _).1, ?_⟩
    simp [List.filter_append, filter_fetch_pageHead, (ih _).2, Event.isFetch,
      List.replicate_succ, List.filter_flatMap]

/-! ## The batch: rate limiting, absorbed failures, the join -/

/-- C3: for a non-empty page, if one of the outcomes that arrive on the response channel
(at any position `j` of the arrival order) comes from a deletion that got HTTP 429, then
`deleteDMs` returns `(true, nil)` for that page, whatever the other outcomes are, and the
only GET request it has made is the one that fetched the page. -/
theorem deleteDMs_rate_limited_batch (R : Remote) (fuel : Nat) (endpoint : String)
    (maxId : Int) (c : Client) (s : Sys) (l : List DM) (j : Nat)
    (hget : R.get s.gets = .response 200 (.dms l)) (hj : j < l.length)
    (h429 : R.post s.batches j = .response 429) :
    (deleteDMs R (fuel + 1) endpoint maxId c s).1 = some (true, none) ∧
      (deleteDMs R (fuel + 1) endpoint maxId c s).2.1 = ⟨s.gets + 1, s.batches + 1⟩ ∧
      (deleteDMs R (fuel + 1) endpoint maxId c s).2.2.filter Event.isFetch =
        [Event.fetch endpoint maxId c] := by
  have hne : l ≠ [] := by
    intro h; rw [h] at hj; exact Nat.not_lt_zero _ hj
  have hr := recvLoop_rate (fun k => sendOutcome (R.post s.batches k)) none l.length j hj
    ((sendOutcome_rate_iff _).mpr h429)
  rw [deleteDMs_page R fuel endpoint maxId c s l hget hne, hr]
  simp [pageHead, Event.isFetch, recvLoop_filter_fetch, List.filter_map, Function.comp_def]

/-- C3, instantiated: the page `[1, 2]`, a 500 arrives first and the 429 second. -/
theorem deleteDMs_rate_limited_batch_witness :
    (remoteErrThenRate.get 0 = .response 200 (.dms [⟨1⟩, ⟨2⟩]) ∧
      1 < [DM.mk 1, DM.mk 2].length ∧ remoteErrThenRate.post 0 1 = .response 429) ∧
    ((deleteDMs remoteErrThenRate 1 "direct_messages" 0 7 ⟨0, 0⟩).1 = some (true, none) ∧
      (deleteDMs remoteErrThenRate 1 "direct_messages" 0 7 ⟨0, 0⟩).2.1 = ⟨1, 1⟩ ∧
      (deleteDMs remoteErrThenRate 1 "direct_messages" 0 7 ⟨0, 0⟩).2.2.filter Event.isFetch =
        [Event.fetch "direct_messages" 0 7]) :=
  ⟨⟨rfl, by decide, rfl⟩,
    deleteDMs_rate_limited_batch remoteErrThenRate 0 "direct_messages" 0 7 ⟨0, 0⟩
      [⟨1⟩, ⟨2⟩] 1 rfl (by decide) rfl⟩


/-- C5: for a non-empty page, if every deletion of the batch fails with a non-429 error
(`deleteDM` returns a non-nil error for every outcome), `deleteDMs` does not return for
that page: after the `N` receives it prints "deleted" and goes on with its loop, and its
next action is the scan line followed by a GET request for the same endpoint, cursor and
client; its result is the result of that continued loop. -/
theorem deleteDMs_absorbs_failures (R : Remote) (fuel : Nat) (endpoint : String)
    (maxId : Int) (c : Client) (s : Sys) (l : List DM)
    (hget : R.get s.gets = .response 200 (.dms l)) (hne : l ≠ [])
    (hfail : ∀ j, j < l.length → (deleteDM (R.post s.batches j)).2 ≠ none) :
    deleteDMs R (fuel + 2) endpoint maxId c s =
        after (pageHead endpoint maxId c l ++
            (List.range l.length).flatMap (fun j =>
              [Event.recv (sendOutcome (R.post s.batches j)),
                Event.log "DM delete err: <nil>"]) ++
            [Event.print "deleted"])
          (deleteDMs R (fuel + 1) endpoint maxId c ⟨s.gets + 1, s.batches + 1⟩) ∧
      ∃ rest, (deleteDMs R (fuel + 1) endpoint maxId c ⟨s.gets + 1, s.batches + 1⟩).2.2 =
        Event.print ("scanning for " ++ endpoint) :: Event.fetch endpoint maxId c :: rest := by
  exact ⟨deleteDMs_page_all_err R (fuel + 1) endpoint maxId c s l hget hne hfail,
    deleteDMs_events_head R fuel endpoint maxId c _⟩

/-- C5, instantiated: the page `[1, 2]` comes back at every fetch and both deletions get
a 500. -/
theorem deleteDMs_absorbs_failures_witness :
    (remoteSamePageAllFail.get 0 = .response 200 (.dms [⟨1⟩, ⟨2⟩]) ∧
      [DM.mk 1, DM.mk 2] ≠ [] ∧
      ∀ j, j < [DM.mk 1, DM.mk 2].length →
        (deleteDM (remoteSamePageAllFail.post 0 j)).2 ≠ none) ∧
    (deleteDMs remoteSamePageAllFail 2 "direct_messages" 0 7 ⟨0, 0⟩ =
        after (pageHead "direct_messages" 0 7 [⟨1⟩, ⟨2⟩] ++
            (List.range [DM.mk 1, DM.mk 2].length).flatMap (fun j =>
              [Event.recv (sendOutcome (remoteSamePageAllFail.post 0 j)),
                Event.log "DM delete err: <nil>"]) ++
            [Event.print "deleted"])
          (deleteDMs remoteSamePageAllFail 1 "direct_messages" 0 7 ⟨1, 1⟩) ∧
      ∃ rest, (deleteDMs remoteSamePageAllFail 1 "direct_messages" 0 7 ⟨1, 1⟩).2.2 =
        Event.print ("scanning for " ++ "direct_messages") ::
          Event.fetch "direct_messages" 0 7 :: rest) :=
  ⟨⟨rfl, by decide, fun _ _ => by simp [remoteSamePageAllFail, deleteDM]⟩,
    deleteDMs_absorbs_failures remoteSamePageAllFail 0 "direct_messages" 0 7 ⟨0, 0⟩
      [⟨1⟩, ⟨2⟩] rfl (by decide) (fun _ _ => by simp [remoteSamePageAllFail, deleteDM])⟩

/-- C6, as stated, fails: on the page `[1, 2]`, when the first outcome to arrive is a
429, `deleteDMs` returns `(true, nil)` after one receive although two deletions were
dispatched. -/
theorem deleteDMs_join_counterexample :
    (deleteDMs remoteRateFirst 1 "direct_messages" 0 7 ⟨0, 0⟩).1 = some (true, none) ∧
      ((deleteDMs remoteRateFirst 1 "direct_messages" 0 7 ⟨0, 0⟩).2.2.filter
        Event.isDelete).length = 2 ∧
      ((deleteDMs remoteRateFirst 1 "direct_messages" 0 7 ⟨0, 0⟩).2.2.filter
        Event.isRecv).length = 1 ∧
      ¬ ((deleteDMs remoteRateFirst 1 "direct_messages" 0 7 ⟨0, 0⟩).2.2.filter
          Event.isRecv).length =
        ((deleteDMs remoteRateFirst 1 "direct_messages" 0 7 ⟨0, 0⟩).2.2.filter
          Event.isDelete).length := by
  decide

/-- C6, amended: for a non-empty page of `N` identifiers, `deleteDMs` receives the
outcomes in arrival order up to and including the first one that comes from a deletion
that got HTTP 429, and then returns `(true, nil)`: if that outcome is the `j`-th (from 0)
it has received `j + 1` outcomes.  If no outcome of the batch is a 429, it receives all
`N` outcomes before it prints "deleted" and goes on to the next fetch. -/
theorem deleteDMs_receives_until_rate (R : Remote) (fuel : Nat) (endpoint : String)
    (maxId : Int) (c : Client) (s : Sys) (l : List DM)
    (hget : R.get s.gets = .response 200 (.dms l)) (hne : l ≠ []) :
    (∀ j, j < l.length → R.post s.batches j = .response 429 →
        (∀ i, i < j → R.post s.batches i ≠ .response 429) →
        (deleteDMs R (fuel + 1) endpoint maxId c s).1 = some (true, none) ∧
          ((deleteDMs R (fuel + 1) endpoint maxId c s).2.2.filter Event.isRecv).length =
            j + 1) ∧
      ((∀ j, j < l.length → R.post s.batches j ≠ .response 429) →
        ∃ w, (w.filter Event.isRecv).length = l.length ∧ w.filter Event.isFetch = [] ∧
          deleteDMs R (fuel + 1) endpoint maxId c s =
            after (pageHead endpoint maxId c l ++ w ++ [Event.print "deleted"])
              (deleteDMs R fuel endpoint maxId c ⟨s.gets + 1, s.batches + 1⟩)) := by
  constructor
  · intro j hj h429 hfirst
    have hr := recvLoop_first_rate (fun k => sendOutcome (R.post s.batches k)) none j
      l.length 0 hj (by simpa using (sendOutcome_rate_iff _).mpr h429)
      (fun k hk => by simpa using (not_congr (sendOutcome_rate_iff _)).mpr (hfirst k hk))
    rw [deleteDMs_page R fuel endpoint maxId c s l hget hne, hr.1]
    simp [pageHead, Event.isRecv, hr.2, List.filter_map, Function.comp_def]
  · intro hno
    have hr := recvLoop_no_rate (fun k => sendOutcome (R.post s.batches k)) none
      l.length 0
      (fun k hk => by simpa using (not_congr (sendOutcome_rate_iff _)).mpr (hno k hk))
    refine ⟨_, hr.2, recvLoop_filter_fetch _ _ _ _, ?_⟩
    rw [deleteDMs_page R fuel endpoint maxId c s l hget hne, hr.1]

/-- C6 amended, instantiated: the page `[1, 2]`, the 429 arrives second. -/
theorem deleteDMs_receives_until_rate_witness :
    (remoteErrThenRate.get 0 = .response 200 (.dms [⟨1⟩, ⟨2⟩]) ∧ [DM.mk 1, DM.mk 2] ≠ []) ∧
    ((deleteDMs remoteErrThenRate 1 "direct_messages" 0 7 ⟨0, 0⟩).1 = some (true, none) ∧
      ((deleteDMs remoteErrThenRate 1 "direct_messages" 0 7 ⟨0, 0⟩).2.2.filter
        Event.isRecv).length = 1 + 1) :=
  ⟨⟨rfl, by decide⟩,
    (deleteDMs_receives_until_rate remoteErrThenRate 0 "direct_messages" 0 7 ⟨0, 0⟩
      [⟨1⟩, ⟨2⟩] rfl (by decide)).1 1 (by decide) rfl
      (fun i hi => by
        have h0 : i = 0 := by omega
        subst h0
        decide)⟩

/-- C9, the code at the failing input: the page `[5]` whose deletion gets a 500.  The
outcome received carries the error of that deletion, but the line logged is
"DM delete err: <nil>": the loop formats the variable `err` of the fetch, which is nil
there, not `r.err`.  The loop then goes on: "deleted", and the next fetch. -/
theorem deleteDMs_logs_fetch_err :
    deleteDMs remoteOneFailure 2 "direct_messages" 0 7 ⟨0, 0⟩ =
      (some (false, none), ⟨2, 1⟩,
        [Event.print "scanning for direct_messages",
          Event.fetch "direct_messages" 0 7,
          Event.print "1 DMs will be deleted",
          Event.delete 5 7,
          Event.recv ⟨false, some "twitter(/1.1/direct_messages.json) status code: 500"⟩,
          Event.log "DM delete err: <nil>",
          Event.print "deleted",
          Event.print "scanning for direct_messages",
          Event.fetch "direct_messages" 0 7,
          Event.print "there is no DMs to delete"]) := by
  decide



/-! ## Runs that do not end, runs that drain -/

/-- C10: `deleteDMs` has no bound on its iterations.  If every GET returns the same
non-empty page and every deletion fails with a non-429 error, then for every number `n`
of iterations `deleteDMs` has not returned and has made `n` GET requests, all for the same
endpoint, cursor and client; `main`, whose first client is then caught in the drain of
"direct_messages" (cursor 0), has not ended either, its events are those of that one call:
no other client is used and no sleep happens. -/
theorem deleteDMs_never_returns (R : Remote) (page : List DM) (hpage : page ≠ [])
    (hget : ∀ n, R.get n = .response 200 (.dms page))
    (hpost : ∀ b j, (deleteDM (R.post b j)).2 ≠ none) :
    (∀ n endpoint maxId c s,
        (deleteDMs R n endpoint maxId c s).1 = none ∧
          (deleteDMs R n endpoint maxId c s).2.2.filter Event.isFetch =
            List.replicate n (Event.fetch endpoint maxId c)) ∧
      (∀ fuel passes c rest s,
        mainLoop R (c :: rest) fuel (passes + 1) s =
            (none, (deleteDMs R fuel "direct_messages" 0 c s).2.1,
              (deleteDMs R fuel "direct_messages" 0 c s).2.2) ∧
          (deleteDMs R fuel "direct_messages" 0 c s).2.2.filter Event.isSleep = []) := by
  refine ⟨fun n endpoint maxId c s =>
    deleteDMs_loops R page hpage hget hpost endpoint maxId c n s, ?_⟩
  intro fuel passes c rest s
  have h := (deleteDMs_loops R page hpage hget hpost "direct_messages" 0 c fuel s).1
  refine ⟨?_, deleteDMs_filter_sleep R "direct_messages" 0 c fuel s⟩
  simp [mainLoop, clientLoop, h]

/-- C10, instantiated: every GET returns the page `[1, 2]` and every deletion gets a 500;
after 3 iterations `deleteDMs` has made 3 GET requests and has not returned. -/
theorem deleteDMs_never_returns_witness :
    ([DM.mk 1, DM.mk 2] ≠ [] ∧
      (∀ n, remoteSamePageAllFail.get n = .response 200 (.dms [⟨1⟩, ⟨2⟩])) ∧
      ∀ b j, (deleteDM (remoteSamePageAllFail.post b j)).2 ≠ none) ∧
    ((deleteDMs remoteSamePageAllFail 3 "direct_messages" 0 7 ⟨0, 0⟩).1 = none ∧
      (deleteDMs remoteSamePageAllFail 3 "direct_messages" 0 7 ⟨0, 0⟩).2.2.filter
          Event.isFetch =
        List.replicate 3 (Event.fetch "direct_messages" 0 7)) :=
  ⟨⟨by decide, fun _ => rfl, fun _ _ => by simp [remoteSamePageAllFail, deleteDM]⟩,
    (deleteDMs_never_returns remoteSamePageAllFail [⟨1⟩, ⟨2⟩] (by decide) (fun _ => rfl)
      (fun _ _ => by simp [remoteSamePageAllFail, deleteDM])).1 3 "direct_messages" 0 7
      ⟨0, 0⟩⟩


/-- Draining `k` non-empty pages whose deletions all succeed, then an empty page. -/
theorem deleteDMs_drains (R : Remote) (endpoint : String) (maxId : Int) (c : Client) :
    ∀ (k x g b : Nat) (pages : Nat → List DM),
      (∀ i, i < k → pages i ≠ []) →
      (∀ i, i < k → R.get (g + i) = .response 200 (.dms (pages i))) →
      R.get (g + k) = .response 200 (.dms []) →
      (∀ i j, i < k → j < (pages i).length → R.post (b + i) j = .response 200) →
      (deleteDMs R (x + k + 1) endpoint maxId c ⟨g, b⟩).1 = some (false, none) ∧
        (deleteDMs R (x + k + 1) endpoint maxId c ⟨g, b⟩).2.1 = ⟨g + k + 1, b + k⟩ ∧
        (deleteDMs R (x + k + 1) endpoint maxId c ⟨g, b⟩).2.2.filter Event.isFetch =
          List.replicate (k + 1) (Event.fetch endpoint maxId c) ∧
        (deleteDMs R (x + k + 1) endpoint maxId c ⟨g, b⟩).2.2.filter Event.isDelete =
          (List.range k).flatMap (fun i =>
            ((pages i).map DM.Id).map (fun id => Event.delete id c)) := by
  intro k
  induction k with
  | zero =>
    intro x g b pages _ _ hempty _
    rw [deleteDMs_empty R (x + 0) endpoint maxId c ⟨g, b⟩ hempty]
    simp [Event.isFetch, Event.isDelete]
  | succ k ih =>
    intro x g b pages hne hget hempty hpost
    have hrec := ih x (g + 1) (b + 1) (fun i => pages (i + 1))
      (fun i hi => hne (i + 1) (by omega))
      (fun i hi => by
        have := hget (i + 1) (by omega)
        rwa [show g + (i + 1) = g + 1 + i by omega] at this)
      (by rwa [show g + (k + 1) = g + 1 + k by omega] at hempty)
      (fun i j hi hj => by
        have := hpost (i + 1) j (by omega) hj
        rwa [show b + (i + 1) = b + 1 + i by omega] at this)
    have hno := recvLoop_no_rate (fun j => sendOutcome (R.post b j)) none
      (pages 0).length 0 (fun j hj => by
        have h200 := hpost 0 j (Nat.succ_pos k) hj
        simp only [Nat.add_zero] at h200
        simp [sendOutcome, deleteDM, h200])
    have hpage := deleteDMs_page R (x + k + 1) endpoint maxId c ⟨g, b⟩ (pages 0)
      (by simpa using hget 0 (Nat.succ_pos k)) (hne 0 (Nat.succ_pos k))
    simp only [hno.1] at hpage
    rw [show x + (k + 1) + 1 = x + k + 1 + 1 by omega, hpage]
    refine ⟨by simpa using hrec.1, ?_, ?_, ?_⟩
    · rw [after_sys, hrec.2.1]
      simp only [Sys.mk.injEq]
      omega
    · simp [List.filter_append, filter_fetch_pageHead, recvLoop_filter_fetch, hrec.2.2.1,
        Event.isFetch, List.replicate_succ]
    · simp [List.filter_append, filter_delete_pageHead, recvLoop_filter_delete, hrec.2.2.2,
        Event.isDelete, List.range_succ_eq_map, List.flatMap_map, Function.comp_def]


/-- C7: one client; the "direct_messages" fetches return `k` non-empty pages and then an
empty page, every deletion succeeds, and the "direct_messages/sent" fetch returns an empty
page.  Given at least `k + 1` iterations per drain and one pass, `main` ends cleanly after
`k + 1` fetches of "direct_messages" followed by one fetch of "direct_messages/sent", one
deletion per fetched identifier (in page order) and no sleep.  An empty page makes
`deleteDMs` return `(false, nil)` with no deletion at all. -/
theorem mainLoop_drains_single_client (R : Remote) (c : Client) (k x p : Nat)
    (pages : Nat → List DM) (hne : ∀ i, i < k → pages i ≠ [])
    (hget : ∀ i, i < k → R.get i = .response 200 (.dms (pages i)))
    (hlast : R.get k = .response 200 (.dms []))
    (hsent : R.get (k + 1) = .response 200 (.dms []))
    (hpost : ∀ i j, i < k → j < (pages i).length → R.post i j = .response 200) :
    ((mainLoop R [c] (x + k + 1) (p + 1) ⟨0, 0⟩).1 = some Exit.done ∧
        (mainLoop R [c] (x + k + 1) (p + 1) ⟨0, 0⟩).2.1 = ⟨k + 2, k⟩ ∧
        (mainLoop R [c] (x + k + 1) (p + 1) ⟨0, 0⟩).2.2.filter Event.isFetch =
          List.replicate (k + 1) (Event.fetch "direct_messages" 0 c) ++
            [Event.fetch "direct_messages/sent" 0 c] ∧
        (mainLoop R [c] (x + k + 1) (p + 1) ⟨0, 0⟩).2.2.filter Event.isDelete =
          (List.range k).flatMap (fun i =>
            ((pages i).map DM.Id).map (fun id => Event.delete id c)) ∧
        (mainLoop R [c] (x + k + 1) (p + 1) ⟨0, 0⟩).2.2.filter Event.isSleep = []) ∧
      (∀ (R1 : Remote) (fuel : Nat) (endpoint : String) (maxId : Int) (c1 : Client)
          (s : Sys), R1.get s.gets = .response 200 (.dms []) →
        deleteDMs R1 (fuel + 1) endpoint maxId c1 s =
          (some (false, none), ⟨s.gets + 1, s.batches⟩,
            [Event.print ("scanning for " ++ endpoint), Event.fetch endpoint maxId c1,
              Event.print "there is no DMs to delete"])) := by
  refine ⟨?_, fun R1 fuel endpoint maxId c1 s h =>
    deleteDMs_empty R1 fuel endpoint maxId c1 s h⟩
  obtain ⟨h1, h2, h3, h4⟩ := deleteDMs_drains R "direct_messages" 0 c k x 0 0 pages hne
    (fun i hi => by simpa using hget i hi) (by simpa using hlast)
    (fun i j hi hj => by simpa using hpost i j hi hj)
  have h5 := deleteDMs_filter_sleep R "direct_messages" 0 c (x + k + 1) ⟨0, 0⟩
  have hd2 := deleteDMs_empty R (x + k) "direct_messages/sent" 0 c ⟨0 + k + 1, 0 + k⟩
    (by simpa using hsent)
  have hloop : clientLoop R (x + k + 1) [c] ⟨0, 0⟩ =
      (Pass.allClear, ⟨k + 2, k⟩,
        (deleteDMs R (x + k + 1) "direct_messages" 0 c ⟨0, 0⟩).2.2 ++
          [Event.print ("scanning for " ++ "direct_messages/sent"),
            Event.fetch "direct_messages/sent" 0 c,
            Event.print "there is no DMs to delete"] ++
          [Event.print "all clear shuting down"]) := by
    simp only [clientLoop, h1, h2, hd2]
    simp
  simp only [mainLoop, hloop]
  simp [List.filter_append, h3, h4, h5, Event.isFetch, Event.isDelete, Event.isSleep]

/-- C7, instantiated with `k = 1` and a page of 3 identifiers: 2 fetches of
"direct_messages", 3 deletions, 1 fetch of "direct_messages/sent", no sleep. -/
theorem mainLoop_drains_single_client_witness :
    ((∀ i, i < 1 → onePage i ≠ []) ∧
      (∀ i, i < 1 → remoteOnePage.get i = .response 200 (.dms (onePage i))) ∧
      remoteOnePage.get 1 = .response 200 (.dms []) ∧
      remoteOnePage.get (1 + 1) = .response 200 (.dms []) ∧
      (∀ i j, i < 1 → j < (onePage i).length → remoteOnePage.post i j = .response 200)) ∧
    ((mainLoop remoteOnePage [7] (0 + 1 + 1) (0 + 1) ⟨0, 0⟩).1 = some Exit.done ∧
      (mainLoop remoteOnePage [7] (0 + 1 + 1) (0 + 1) ⟨0, 0⟩).2.1 = ⟨1 + 2, 1⟩ ∧
      (mainLoop remoteOnePage [7] (0 + 1 + 1) (0 + 1) ⟨0, 0⟩).2.2.filter Event.isFetch =
        List.replicate (1 + 1) (Event.fetch "direct_messages" 0 7) ++
          [Event.fetch "direct_messages/sent" 0 7] ∧
      (mainLoop remoteOnePage [7] (0 + 1 + 1) (0 + 1) ⟨0, 0⟩).2.2.filter Event.isDelete =
        (List.range 1).flatMap (fun i =>
          ((onePage i).map DM.Id).map (fun id => Event.delete id 7)) ∧
      (mainLoop remoteOnePage [7] (0 + 1 + 1) (0 + 1) ⟨0, 0⟩).2.2.filter Event.isSleep = []) :=
  ⟨⟨fun i hi => by have h0 : i = 0 := by omega
                   subst h0; decide,
      fun i hi => by have h0 : i = 0 := by omega
                     subst h0; rfl,
      rfl, rfl, fun _ _ _ _ => rfl⟩,
    (mainLoop_drains_single_client remoteOnePage 7 1 0 0 onePage
      (fun i hi => by have h0 : i = 0 := by omega
                      subst h0; decide)
      (fun i hi => by have h0 : i = 0 := by omega
                      subst h0; rfl)
      rfl rfl (fun _ _ _ _ => rfl)).1⟩


/-! ## The run controller -/

/-- A pass of rate-limited clients falls through to the clients that follow. -/
theorem clientLoop_ratePass (R : Remote) (fuel : Nat) (rest : List Client) :
    ∀ (cs : List Client) (s t : Sys) (ev : List Event), RatePass R fuel cs s t ev →
      clientLoop R fuel (cs ++ rest) s = after ev (clientLoop R fuel rest t) := by
  intro cs s t ev h
  induction h with
  | nil s => simp [after]
  | received c cs s s1 t e1 e h1 _ ih =>
    simp only [List.cons_append, clientLoop, h1]
    simp [after, ih]
  | sent c cs s s1 s2 t e1 e2 e h1 h2 _ ih =>
    simp only [List.cons_append, clientLoop, h1, h2]
    simp [after, ih]

/-- C1: in a pass that starts in any state `s`, let the clients `pre` all be rate-limited
and let `c`, the next client, get `(false, nil)` from `deleteDMs` on "direct_messages"
and then on "direct_messages/sent".  Then `main` ends there: its events are those of
`pre`, those of the two drains of `c`, and the line "all clear shuting down"; nothing
follows, so no fetch, deletion or sleep happens afterwards, no client of `post` is used
and no client of `pre` is used again. -/
theorem mainLoop_stops_at_first_clear (R : Remote) (fuel passes : Nat)
    (pre : List Client) (c : Client) (post : List Client) (s s0 s1 s2 : Sys)
    (e0 e1 e2 : List Event) (hpre : RatePass R fuel pre s s0 e0)
    (h1 : deleteDMs R fuel "direct_messages" 0 c s0 = (some (false, none), s1, e1))
    (h2 : deleteDMs R fuel "direct_messages/sent" 0 c s1 = (some (false, none), s2, e2)) :
    mainLoop R (pre ++ c :: post) fuel (passes + 1) s =
      (some Exit.done, s2, e0 ++ e1 ++ e2 ++ [Event.print "all clear shuting down"]) := by
  have hc : clientLoop R fuel (c :: post) s0 =
      (Pass.allClear, s2, e1 ++ e2 ++ [Event.print "all clear shuting down"]) := by
    simp only [clientLoop, h1, h2]
  simp only [mainLoop, clientLoop_ratePass R fuel (c :: post) pre s s0 e0 hpre, hc]
  simp [after]

/-- C1, instantiated: client 0 is rate-limited on its first fetch, client 1 drains both
endpoints, client 2 is never used. -/
theorem mainLoop_stops_at_first_clear_witness :
    (RatePass remoteRateThenEmpty 1 [0] ⟨0, 0⟩ ⟨1, 0⟩
        ([Event.print "scanning for direct_messages", Event.fetch "direct_messages" 0 0] ++
          []) ∧
      deleteDMs remoteRateThenEmpty 1 "direct_messages" 0 1 ⟨1, 0⟩ =
        (some (false, none), ⟨2, 0⟩,
          [Event.print "scanning for direct_messages", Event.fetch "direct_messages" 0 1,
            Event.print "there is no DMs to delete"]) ∧
      deleteDMs remoteRateThenEmpty 1 "direct_messages/sent" 0 1 ⟨2, 0⟩ =
        (some (false, none), ⟨3, 0⟩,
          [Event.print "scanning for direct_messages/sent",
            Event.fetch "direct_messages/sent" 0 1,
            Event.print "there is no DMs to delete"])) ∧
    mainLoop remoteRateThenEmpty ([0] ++ 1 :: [2]) 1 (0 + 1) ⟨0, 0⟩ =
      (some Exit.done, ⟨3, 0⟩,
        ([Event.print "scanning for direct_messages", Event.fetch "direct_messages" 0 0] ++
            []) ++
          [Event.print "scanning for direct_messages", Event.fetch "direct_messages" 0 1,
            Event.print "there is no DMs to delete"] ++
          [Event.print "scanning for direct_messages/sent",
            Event.fetch "direct_messages/sent" 0 1,
            Event.print "there is no DMs to delete"] ++
          [Event.print "all clear shuting down"]) :=
  ⟨⟨RatePass.received 0 [] ⟨0, 0⟩ ⟨1, 0⟩ ⟨1, 0⟩ _ [] (by decide) (RatePass.nil _),
      by decide, by decide⟩,
    mainLoop_stops_at_first_clear remoteRateThenEmpty 1 0 [0] 1 [2] ⟨0, 0⟩ ⟨1, 0⟩ ⟨2, 0⟩
      ⟨3, 0⟩ _ _ _
      (RatePass.received 0 [] ⟨0, 0⟩ ⟨1, 0⟩ ⟨1, 0⟩ _ [] (by decide) (RatePass.nil _))
      (by decide) (by decide)⟩


/-- A pass over a client list starts with the scan line and the "direct_messages" fetch
of its first client. -/
theorem clientLoop_events_head (R : Remote) (fuel : Nat) (c : Client) (cs : List Client)
    (s : Sys) :
    ∃ rest, (clientLoop R (fuel + 1) (c :: cs) s).2.2 =
      Event.print "scanning for direct_messages" ::
        Event.fetch "direct_messages" 0 c :: rest := by
  obtain ⟨r1, hr1⟩ := deleteDMs_events_head R fuel "direct_messages" 0 c s
  have hr1' : (deleteDMs R (fuel + 1) "direct_messages" 0 c s).2.2 =
      Event.print "scanning for direct_messages" ::
        Event.fetch "direct_messages" 0 c :: r1 := hr1
  simp only [clientLoop]
  split
  · exact ⟨_, hr1'⟩
  · simp only [hr1']; exact ⟨_, rfl⟩
  · simp only [after_events, hr1']; exact ⟨_, rfl⟩
  · split
    · simp only [hr1']; exact ⟨_, rfl⟩
    · simp only [hr1']; exact ⟨_, rfl⟩
    · simp only [after_events, hr1']; exact ⟨_, rfl⟩
    · simp only [hr1']; exact ⟨_, rfl⟩

theorem mainLoop_events_head (R : Remote) (fuel passes : Nat) (c : Client)
    (cs : List Client) (s : Sys) :
    ∃ rest, (mainLoop R (c :: cs) (fuel + 1) (passes + 1) s).2.2 =
      Event.print "scanning for direct_messages" ::
        Event.fetch "direct_messages" 0 c :: rest := by
  obtain ⟨r1, hr1⟩ := clientLoop_events_head R fuel c cs s
  simp only [mainLoop]
  split
  · exact ⟨_, hr1⟩
  · exact ⟨_, hr1⟩
  · exact ⟨_, hr1⟩
  · simp only [after_events, hr1]; exact ⟨_, rfl⟩

/-- Every GET request made by `deleteDMs` is for its own endpoint, cursor and client. -/
theorem deleteDMs_fetch_own (R : Remote) (endpoint : String) (maxId : Int) (c : Client) :
    ∀ fuel s e, e ∈ (deleteDMs R fuel endpoint maxId c s).2.2 → e.isFetch = true →
      e = Event.fetch endpoint maxId c := by
  have hrecv : ∀ (chan : Nat → RateErrResponse) (err : GoError) (l j : Nat) (e : Event),
      e ∈ (recvLoop chan err l j).2 → e.isFetch = true → False := by
    intro chan err l j e he hf
    have : e ∈ (recvLoop chan err l j).2.filter Event.isFetch :=
      List.mem_filter.mpr ⟨he, hf⟩
    rw [recvLoop_filter_fetch] at this
    exact List.not_mem_nil _ this
  intro fuel
  induction fuel with
  | zero => intro s e he; simp [deleteDMs] at he
  | succ fuel ih =>
    intro s e
    simp only [deleteDMs, getDMIds_events]
    split_ifs
    · intro he hf
      simp at he
      rcases he with rfl | rfl
      · simp [Event.isFetch] at hf
      · rfl
    · split
      · intro he hf
        simp only [List.mem_append, List.mem_cons, List.mem_map, List.mem_singleton,
          List.not_mem_nil, or_false] at he
        rcases he with ((((rfl | rfl) | rfl) | ⟨a, _, rfl⟩) | he)
        · simp [Event.isFetch] at hf
        · rfl
        · simp [Event.isFetch] at hf
        · simp [Event.isFetch] at hf
        · exact (hrecv _ _ _ _ e he hf).elim
      · intro he hf
        simp only [after_events, List.mem_append, List.mem_cons, List.mem_map,
          List.mem_singleton, List.not_mem_nil, or_false] at he
        rcases he with ((((((rfl | rfl) | rfl) | ⟨a, _, rfl⟩) | he) | rfl) | he)
        · simp [Event.isFetch] at hf
        · rfl
        · simp [Event.isFetch] at hf
        · simp [Event.isFetch] at hf
        · exact (hrecv _ _ _ _ e he hf).elim
        · simp [Event.isFetch] at hf
        · exact ih _ e he hf
    · intro he hf
      simp at he
      rcases he with rfl | rfl | rfl
      · simp [Event.isFetch] at hf
      · rfl
      · simp [Event.isFetch] at hf

/-- A rate-limited pass over `pre ++ l2` is one over `pre` followed by one over `l2`. -/
theorem ratePass_split (R : Remote) (fuel : Nat) (l2 : List Client) :
    ∀ (pre : List Client) (s t : Sys) (ev : List Event),
      RatePass R fuel (pre ++ l2) s t ev →
      ∃ sa ea ec, RatePass R fuel pre s sa ea ∧ RatePass R fuel l2 sa t ec ∧
        ev = ea ++ ec := by
  intro pre
  induction pre with
  | nil => intro s t ev h; exact ⟨s, [], ev, RatePass.nil s, h, rfl⟩
  | cons c pre ih =>
    intro s t ev h
    cases h with
    | received _ _ _ s1 _ e1 e h1 hrest =>
      obtain ⟨sa, ea, ec, hp, hl, rfl⟩ := ih s1 t e hrest
      exact ⟨sa, e1 ++ ea, ec, RatePass.received c pre s s1 sa e1 ea h1 hp, hl,
        by simp⟩
    | sent _ _ _ s1 s2 _ e1 e2 e h1 h2 hrest =>
      obtain ⟨sa, ea, ec, hp, hl, rfl⟩ := ih s2 t e hrest
      exact ⟨sa, e1 ++ e2 ++ ea, ec, RatePass.sent c pre s s1 s2 sa e1 e2 ea h1 h2 hp, hl,
        by simp⟩

theorem ratePass_filter_sleep (R : Remote) (fuel : Nat) :
    ∀ (cs : List Client) (s t : Sys) (ev : List Event), RatePass R fuel cs s t ev →
      ev.filter Event.isSleep = [] := by
  intro cs s t ev h
  induction h with
  | nil s => rfl
  | received c cs s s1 t e1 e h1 _ ih =>
    have := deleteDMs_filter_sleep R "direct_messages" 0 c fuel s
    rw [h1] at this
    simp [List.filter_append, ih, this]
  | sent c cs s s1 s2 t e1 e2 e h1 h2 _ ih =>
    have a1 := deleteDMs_filter_sleep R "direct_messages" 0 c fuel s
    have a2 := deleteDMs_filter_sleep R "direct_messages/sent" 0 c fuel s1
    rw [h1] at a1
    rw [h2] at a2
    simp [List.filter_append, ih, a1, a2]

/-- C2: for a non-empty client list `c0 :: cs`, if in one pass every client is
rate-limited on "direct_messages" or on "direct_messages/sent" and no error occurs, then
`main` performs the events of that pass, none of which is a sleep, then prints the
rate-limit line and sleeps once, for 16 minutes, and goes on with a new pass whose first
actions are the scan line and a fetch of "direct_messages" with the first client `c0`.
A client `c` of the list that is rate-limited on "direct_messages" contributes to the pass
only the events of that drain, among which there is no fetch of "direct_messages/sent";
the events of the next client follow at once. -/
theorem mainLoop_sleeps_once_when_all_rate_limited (R : Remote) (fuel passes : Nat)
    (c0 : Client) (cs : List Client) (s t : Sys) (ev : List Event)
    (hpass : RatePass R (fuel + 1) (c0 :: cs) s t ev) :
    mainLoop R (c0 :: cs) (fuel + 1) (passes + 2) s =
        after (ev ++ [Event.print "all apps are rate limited, will run again after 16m",
            Event.sleep 16])
          (mainLoop R (c0 :: cs) (fuel + 1) (passes + 1) t) ∧
      (∃ rest, (mainLoop R (c0 :: cs) (fuel + 1) (passes + 1) t).2.2 =
        Event.print "scanning for direct_messages" ::
          Event.fetch "direct_messages" 0 c0 :: rest) ∧
      ev.filter Event.isSleep = [] ∧
      (∀ pre c post, c0 :: cs = pre ++ c :: post →
        ∃ sa ea, RatePass R (fuel + 1) pre s sa ea ∧
          ((deleteDMs R (fuel + 1) "direct_messages" 0 c sa).1 = some (true, none) →
            ∃ ec, RatePass R (fuel + 1) post
                (deleteDMs R (fuel + 1) "direct_messages" 0 c sa).2.1 t ec ∧
              ev = ea ++ (deleteDMs R (fuel + 1) "direct_messages" 0 c sa).2.2 ++ ec ∧
              ∀ m c1, Event.fetch "direct_messages/sent" m c1 ∉
                (deleteDMs R (fuel + 1) "direct_messages" 0 c sa).2.2)) := by
  refine ⟨?_, mainLoop_events_head R fuel passes c0 cs t,
    ratePass_filter_sleep R (fuel + 1) _ s t ev hpass, ?_⟩
  · have h := clientLoop_ratePass R (fuel + 1) [] (c0 :: cs) s t ev hpass
    rw [List.append_nil] at h
    have hmain : mainLoop R (c0 :: cs) (fuel + 1) (passes + 2) s =
        match (clientLoop R (fuel + 1) (c0 :: cs) s).1 with
        | .allClear => (some .done, (clientLoop R (fuel + 1) (c0 :: cs) s).2.1,
            (clientLoop R (fuel + 1) (c0 :: cs) s).2.2)
        | .fatal e => (some (.fatal e), (clientLoop R (fuel + 1) (c0 :: cs) s).2.1,
            (clientLoop R (fuel + 1) (c0 :: cs) s).2.2)
        | .running => (none, (clientLoop R (fuel + 1) (c0 :: cs) s).2.1,
            (clientLoop R (fuel + 1) (c0 :: cs) s).2.2)
        | .fallThrough =>
          after ((clientLoop R (fuel + 1) (c0 :: cs) s).2.2 ++
              [Event.print "all apps are rate limited, will run again after 16m",
                Event.sleep 16])
            (mainLoop R (c0 :: cs) (fuel + 1) (passes + 1)
              (clientLoop R (fuel + 1) (c0 :: cs) s).2.1) := rfl
    rw [hmain, h]
    simp [after, clientLoop]
  · intro pre c post hsplit
    rw [hsplit] at hpass
    obtain ⟨sa, ea, ec, hp, hl, rfl⟩ := ratePass_split R (fuel + 1) (c :: post) pre s t ev hpass
    refine ⟨sa, ea, hp, ?_⟩
    intro hrate
    cases hl with
    | received _ _ _ s1 _ e1 e h1 hrest =>
      rw [h1]
      refine ⟨e, hrest, by simp, ?_⟩
      intro m c1 hmem
      have hown := deleteDMs_fetch_own R "direct_messages" 0 c (fuel + 1) sa
        (Event.fetch "direct_messages/sent" m c1) (by rw [h1]; exact hmem) rfl
      exact absurd (Event.fetch.inj hown).1 (by decide)
    | sent _ _ _ s1 s2 _ e1 e2 e h1 h2 hrest =>
      rw [h1] at hrate
      simp at hrate


/-- A sample pass: client 0 is rate-limited on "direct_messages", client 1 on
"direct_messages/sent". -/
theorem ratePass_sample :
    RatePass remoteRateAround 1 [0, 1] ⟨0, 0⟩ ⟨3, 0⟩
      [Event.print "scanning for direct_messages", Event.fetch "direct_messages" 0 0,
        Event.print "scanning for direct_messages", Event.fetch "direct_messages" 0 1,
        Event.print "there is no DMs to delete",
        Event.print "scanning for direct_messages/sent",
        Event.fetch "direct_messages/sent" 0 1] :=
  RatePass.received 0 [1] ⟨0, 0⟩ ⟨1, 0⟩ ⟨3, 0⟩
    [Event.print "scanning for direct_messages", Event.fetch "direct_messages" 0 0]
    [Event.print "scanning for direct_messages", Event.fetch "direct_messages" 0 1,
      Event.print "there is no DMs to delete",
      Event.print "scanning for direct_messages/sent",
      Event.fetch "direct_messages/sent" 0 1]
    (by decide)
    (RatePass.sent 1 [] ⟨1, 0⟩ ⟨2, 0⟩ ⟨3, 0⟩ ⟨3, 0⟩
      [Event.print "scanning for direct_messages", Event.fetch "direct_messages" 0 1,
        Event.print "there is no DMs to delete"]
      [Event.print "scanning for direct_messages/sent",
        Event.fetch "direct_messages/sent" 0 1]
      [] (by decide) (by decide) (RatePass.nil _))

/-- C2, instantiated: two clients, the first rate-limited on "direct_messages", the second
on "direct_messages/sent"; one sleep follows the pass and the next pass starts. -/
theorem mainLoop_sleeps_once_when_all_rate_limited_witness :
    RatePass remoteRateAround (0 + 1) (0 :: [1]) ⟨0, 0⟩ ⟨3, 0⟩
        [Event.print "scanning for direct_messages", Event.fetch "direct_messages" 0 0,
          Event.print "scanning for direct_messages", Event.fetch "direct_messages" 0 1,
          Event.print "there is no DMs to delete",
          Event.print "scanning for direct_messages/sent",
          Event.fetch "direct_messages/sent" 0 1] ∧
      mainLoop remoteRateAround (0 :: [1]) (0 + 1) (0 + 2) ⟨0, 0⟩ =
        after ([Event.print "scanning for direct_messages",
              Event.fetch "direct_messages" 0 0,
              Event.print "scanning for direct_messages",
              Event.fetch "direct_messages" 0 1,
              Event.print "there is no DMs to delete",
              Event.print "scanning for direct_messages/sent",
              Event.fetch "direct_messages/sent" 0 1] ++
            [Event.print "all apps are rate limited, will run again after 16m",
              Event.sleep 16])
          (mainLoop remoteRateAround (0 :: [1]) (0 + 1) (0 + 1) ⟨3, 0⟩) :=
  ⟨ratePass_sample,
    (mainLoop_sleeps_once_when_all_rate_limited remoteRateAround 0 0 0 [1] ⟨0, 0⟩ ⟨3, 0⟩ _
      ratePass_sample).1⟩

/-! ## A fetch that gets an unexpected status -/

/-- One iteration of `deleteDMs` either ends with one more GET made, or goes on with the
loop after that GET. -/
theorem deleteDMs_step (R : Remote) (fuel : Nat) (endpoint : String) (maxId : Int)
    (c : Client) (s : Sys) :
    (deleteDMs R (fuel + 1) endpoint maxId c s).2.1.gets = s.gets + 1 ∨
      ∃ pre b, deleteDMs R (fuel + 1) endpoint maxId c s =
        after pre (deleteDMs R fuel endpoint maxId c ⟨s.gets + 1, b⟩) := by
  simp only [deleteDMs, getDMIds_sys]
  split_ifs
  · left; rfl
  · split
    · left; rfl
    · right; exact ⟨_, _, rfl⟩
  · left; rfl

/-- One iteration of `deleteDMs` on a fetch that gets a status other than 200 and 429. -/
theorem deleteDMs_bad_status (R : Remote) (fuel : Nat) (endpoint : String) (maxId : Int)
    (c : Client) (s : Sys) (code : Nat) (body : Body) (h200 : code ≠ 200)
    (h429 : code ≠ 429) (hget : R.get s.gets = .response code body) :
    deleteDMs R (fuel + 1) endpoint maxId c s =
      (some (false, some (statusErr code)), ⟨s.gets + 1, s.batches⟩,
        [Event.print ("scanning for " ++ endpoint), Event.fetch endpoint maxId c]) := by
  simp [deleteDMs, getDMIds, hget, h200, h429]

/-- Whichever GET of a `deleteDMs` call gets a status other than 200 and 429, it is the
last action of the call, which returns that error. -/
theorem deleteDMs_bad_fetch (R : Remote) (code : Nat) (body : Body) (h200 : code ≠ 200)
    (h429 : code ≠ 429) (endpoint : String) (maxId : Int) (c : Client) :
    ∀ fuel s k, s.gets ≤ k → k < (deleteDMs R fuel endpoint maxId c s).2.1.gets →
      R.get k = .response code body →
      (deleteDMs R fuel endpoint maxId c s).1 = some (false, some (statusErr code)) ∧
        (deleteDMs R fuel endpoint maxId c s).2.1.gets = k + 1 ∧
        ∃ pre, (deleteDMs R fuel endpoint maxId c s).2.2 =
          pre ++ [Event.fetch endpoint maxId c] := by
  intro fuel
  induction fuel with
  | zero =>
    intro s k hle hlt _
    simp only [deleteDMs] at hlt
    omega
  | succ fuel ih =>
    intro s k hle hlt hget
    by_cases hk : k = s.gets
    · subst hk
      rw [deleteDMs_bad_status R fuel endpoint maxId c s code body h200 h429 hget]
      exact ⟨rfl, rfl, [Event.print ("scanning for " ++ endpoint)], rfl⟩
    · rcases deleteDMs_step R fuel endpoint maxId c s with hstep | ⟨pre, b, hstep⟩
      · omega
      · rw [hstep] at hlt ⊢
        simp only [after_sys] at hlt
        obtain ⟨h1, h2, pre1, h3⟩ := ih ⟨s.gets + 1, b⟩ k (by simp only; omega) hlt hget
        exact ⟨by simpa using h1, by simpa using h2, pre ++ pre1, by simp [h3]⟩


/-- Whichever GET of a pass gets a status other than 200 and 429, the pass ends in the
fatal error right after it. -/
theorem clientLoop_bad_fetch (R : Remote) (code : Nat) (body : Body) (h200 : code ≠ 200)
    (h429 : code ≠ 429) (fuel : Nat) :
    ∀ (clients : List Client) (s : Sys) (k : Nat), s.gets ≤ k →
      k < (clientLoop R fuel clients s).2.1.gets → R.get k = .response code body →
      (clientLoop R fuel clients s).1 = Pass.fatal (statusErr code) ∧
        (clientLoop R fuel clients s).2.1.gets = k + 1 ∧
        ∃ pre endpoint c, c ∈ clients ∧
          (endpoint = "direct_messages" ∨ endpoint = "direct_messages/sent") ∧
          (clientLoop R fuel clients s).2.2 =
            pre ++ [Event.fetch endpoint 0 c, Event.fatal (statusErr code)] := by
  intro clients
  induction clients with
  | nil =>
    intro s k hle hlt _
    simp only [clientLoop] at hlt
    omega
  | cons c rest ih =>
    intro s k hle hlt hget
    by_cases hk1 : k < (deleteDMs R fuel "direct_messages" 0 c s).2.1.gets
    · obtain ⟨h1, h2, pre1, h3⟩ := deleteDMs_bad_fetch R code body h200 h429
        "direct_messages" 0 c fuel s k hle hk1 hget
      have hcl : clientLoop R fuel (c :: rest) s =
          (Pass.fatal (statusErr code), (deleteDMs R fuel "direct_messages" 0 c s).2.1,
            (deleteDMs R fuel "direct_messages" 0 c s).2.2 ++
              [Event.fatal (statusErr code)]) := by
        simp only [clientLoop, h1]
      rw [hcl]
      exact ⟨rfl, h2, pre1, "direct_messages", c, List.mem_cons_self _ _, Or.inl rfl,
        by simp [h3]⟩
    · have hle1 : (deleteDMs R fuel "direct_messages" 0 c s).2.1.gets ≤ k := by omega
      rcases hd1 : (deleteDMs R fuel "direct_messages" 0 c s).1 with _ | ⟨rate, err⟩
      · simp only [clientLoop, hd1] at hlt
        omega
      · cases err with
        | some e =>
          simp only [clientLoop, hd1] at hlt
          omega
        | none =>
          cases rate with
          | true =>
            have hcl : clientLoop R fuel (c :: rest) s =
                after (deleteDMs R fuel "direct_messages" 0 c s).2.2
                  (clientLoop R fuel rest (deleteDMs R fuel "direct_messages" 0 c s).2.1) := by
              simp only [clientLoop, hd1]
            rw [hcl] at hlt ⊢
            simp only [after_sys] at hlt
            obtain ⟨a1, a2, pre, ep, c1, hc1, hep, a3⟩ := ih _ k hle1 hlt hget
            exact ⟨by simpa using a1, by simpa using a2,
              (deleteDMs R fuel "direct_messages" 0 c s).2.2 ++ pre, ep, c1,
              List.mem_cons_of_mem _ hc1, hep, by simp [a3]⟩
          | false =>
            by_cases hk2 : k < (deleteDMs R fuel "direct_messages/sent" 0 c
                (deleteDMs R fuel "direct_messages" 0 c s).2.1).2.1.gets
            · obtain ⟨h1, h2, pre1, h3⟩ := deleteDMs_bad_fetch R code body h200 h429
                "direct_messages/sent" 0 c fuel _ k hle1 hk2 hget
              have hcl : clientLoop R fuel (c :: rest) s =
                  (Pass.fatal (statusErr code),
                    (deleteDMs R fuel "direct_messages/sent" 0 c
                      (deleteDMs R fuel "direct_messages" 0 c s).2.1).2.1,
                    (deleteDMs R fuel "direct_messages" 0 c s).2.2 ++
                      (deleteDMs R fuel "direct_messages/sent" 0 c
                        (deleteDMs R fuel "direct_messages" 0 c s).2.1).2.2 ++
                      [Event.fatal (statusErr code)]) := by
                simp only [clientLoop, hd1, h1]
              rw [hcl]
              exact ⟨rfl, h2, (deleteDMs R fuel "direct_messages" 0 c s).2.2 ++ pre1,
                "direct_messages/sent", c, List.mem_cons_self _ _, Or.inr rfl,
                by simp [h3]⟩
            · have hle2 : (deleteDMs R fuel "direct_messages/sent" 0 c
                  (deleteDMs R fuel "direct_messages" 0 c s).2.1).2.1.gets ≤ k := by omega
              rcases hd2 : (deleteDMs R fuel "direct_messages/sent" 0 c
                  (deleteDMs R fuel "direct_messages" 0 c s).2.1).1 with _ | ⟨rate2, err2⟩
              · simp only [clientLoop, hd1, hd2] at hlt
                omega
              · cases err2 with
                | some e =>
                  simp only [clientLoop, hd1, hd2] at hlt
                  omega
                | none =>
                  cases rate2 with
                  | true =>
                    have hcl : clientLoop R fuel (c :: rest) s =
                        after ((deleteDMs R fuel "direct_messages" 0 c s).2.2 ++
                            (deleteDMs R fuel "direct_messages/sent" 0 c
                              (deleteDMs R fuel "direct_messages" 0 c s).2.1).2.2)
                          (clientLoop R fuel rest
                            (deleteDMs R fuel "direct_messages/sent" 0 c
                              (deleteDMs R fuel "direct_messages" 0 c s).2.1).2.1) := by
                      simp only [clientLoop, hd1, hd2]
                    rw [hcl] at hlt ⊢
                    simp only [after_sys] at hlt
                    obtain ⟨a1, a2, pre, ep, c1, hc1, hep, a3⟩ := ih _ k hle2 hlt hget
                    exact ⟨by simpa using a1, by simpa using a2,
                      (deleteDMs R fuel "direct_messages" 0 c s).2.2 ++
                        (deleteDMs R fuel "direct_messages/sent" 0 c
                          (deleteDMs R fuel "direct_messages" 0 c s).2.1).2.2 ++ pre,
                      ep, c1, List.mem_cons_of_mem _ hc1, hep, by simp [a3]⟩
                  | false =>
                    simp only [clientLoop, hd1, hd2] at hlt
                    omega

/-- Whichever GET of the run gets a status other than 200 and 429, `main` ends in the
fatal error right after it. -/
theorem mainLoop_bad_fetch (R : Remote) (code : Nat) (body : Body) (h200 : code ≠ 200)
    (h429 : code ≠ 429) (clients : List Client) (fuel : Nat) :
    ∀ (passes : Nat) (s : Sys) (k : Nat), s.gets ≤ k →
      k < (mainLoop R clients fuel passes s).2.1.gets → R.get k = .response code body →
      (mainLoop R clients fuel passes s).1 = some (Exit.fatal (statusErr code)) ∧
        (mainLoop R clients fuel passes s).2.1.gets = k + 1 ∧
        ∃ pre endpoint c, c ∈ clients ∧
          (endpoint = "direct_messages" ∨ endpoint = "direct_messages/sent") ∧
          (mainLoop R clients fuel passes s).2.2 =
            pre ++ [Event.fetch endpoint 0 c, Event.fatal (statusErr code)] := by
  intro passes
  induction passes with
  | zero =>
    intro s k hle hlt _
    simp only [mainLoop] at hlt
    omega
  | succ passes ih =>
    intro s k hle hlt hget
    by_cases hk : k < (clientLoop R fuel clients s).2.1.gets
    · obtain ⟨h1, h2, h3⟩ := clientLoop_bad_fetch R code body h200 h429 fuel clients s k
        hle hk hget
      have hml : mainLoop R clients fuel (passes + 1) s =
          (some (Exit.fatal (statusErr code)), (clientLoop R fuel clients s).2.1,
            (clientLoop R fuel clients s).2.2) := by
        simp only [mainLoop, h1]
      rw [hml]
      exact ⟨rfl, h2, h3⟩
    · have hle1 : (clientLoop R fuel clients s).2.1.gets ≤ k := by omega
      cases hp : (clientLoop R fuel clients s).1 with
      | allClear => simp only [mainLoop, hp] at hlt; omega
      | fatal e => simp only [mainLoop, hp] at hlt; omega
      | running => simp only [mainLoop, hp] at hlt; omega
      | fallThrough =>
        have hml : mainLoop R clients fuel (passes + 1) s =
            after ((clientLoop R fuel clients s).2.2 ++
                [Event.print "all apps are rate limited, will run again after 16m",
                  Event.sleep 16])
              (mainLoop R clients fuel passes (clientLoop R fuel clients s).2.1) := by
          simp only [mainLoop, hp]
        rw [hml] at hlt ⊢
        simp only [after_sys] at hlt
        obtain ⟨a1, a2, pre, ep, c1, hc1, hep, a3⟩ := ih _ k hle1 hlt hget
        exact ⟨by simpa using a1, by simpa using a2,
          (clientLoop R fuel clients s).2.2 ++
            [Event.print "all apps are rate limited, will run again after 16m",
              Event.sleep 16] ++ pre,
          ep, c1, hc1, hep, by simp [a3]⟩

/-- C4: when a page fetch gets an HTTP status `code` other than 200 and 429, `getDMIds`
returns `rate = false` and the error "twitter(/1.1/direct_messages.json) status code: "
followed by the decimal digits of `code`; `deleteDMs` returns that `(false, err)` right
after the GET, with no deletion dispatched; and whichever GET of a run of `main` gets
such a status (any client, either endpoint, any pass), `main` ends with that fatal error:
that GET is the last one and the fetch and the fatal error are the last two events. -/
theorem fetch_status_error_is_fatal (R : Remote) (code : Nat) (body : Body)
    (h200 : code ≠ 200) (h429 : code ≠ 429) :
    (∀ endpoint maxId c s, R.get s.gets = .response code body →
        getDMIds R endpoint maxId c s =
            ((false, [], some (statusErr code)), ⟨s.gets + 1, s.batches⟩,
              [Event.fetch endpoint maxId c]) ∧
          ∀ fuel, deleteDMs R (fuel + 1) endpoint maxId c s =
            (some (false, some (statusErr code)), ⟨s.gets + 1, s.batches⟩,
              [Event.print ("scanning for " ++ endpoint), Event.fetch endpoint maxId c])) ∧
      (statusErr code).data =
        "twitter(/1.1/direct_messages.json) status code: ".data ++ (Nat.repr code).data ∧
      (∀ clients fuel passes s k, s.gets ≤ k →
        k < (mainLoop R clients fuel passes s).2.1.gets → R.get k = .response code body →
        (mainLoop R clients fuel passes s).1 = some (Exit.fatal (statusErr code)) ∧
          (mainLoop R clients fuel passes s).2.1.gets = k + 1 ∧
          ∃ pre endpoint c, c ∈ clients ∧
            (endpoint = "direct_messages" ∨ endpoint = "direct_messages/sent") ∧
            (mainLoop R clients fuel passes s).2.2 =
              pre ++ [Event.fetch endpoint 0 c, Event.fatal (statusErr code)]) := by
  refine ⟨fun endpoint maxId c s hget => ⟨?_, fun fuel =>
      deleteDMs_bad_status R fuel endpoint maxId c s code body h200 h429 hget⟩, ?_,
    fun clients fuel passes s k =>
      mainLoop_bad_fetch R code body h200 h429 clients fuel passes s k⟩
  · simp [getDMIds, hget, h200, h429]
  · simp [statusErr, String.data_append]
    rfl

/-- C4, instantiated: client 3 drains "direct_messages" and its fetch of
"direct_messages/sent", the second GET of the run, gets a 500. -/
theorem fetch_status_error_is_fatal_witness :
    ((500 : Nat) ≠ 200 ∧ (500 : Nat) ≠ 429 ∧ (⟨0, 0⟩ : Sys).gets ≤ 1 ∧
      1 < (mainLoop remoteEmptyThen500 [3, 4] 1 1 ⟨0, 0⟩).2.1.gets ∧
      remoteEmptyThen500.get 1 = .response 500 (.malformed "")) ∧
    ((mainLoop remoteEmptyThen500 [3, 4] 1 1 ⟨0, 0⟩).1 = some (Exit.fatal (statusErr 500)) ∧
      (mainLoop remoteEmptyThen500 [3, 4] 1 1 ⟨0, 0⟩).2.1.gets = 1 + 1 ∧
      ∃ pre endpoint c, c ∈ [3, 4] ∧
        (endpoint = "direct_messages" ∨ endpoint = "direct_messages/sent") ∧
        (mainLoop remoteEmptyThen500 [3, 4] 1 1 ⟨0, 0⟩).2.2 =
          pre ++ [Event.fetch endpoint 0 c, Event.fatal (statusErr 500)]) :=
  ⟨⟨by decide, by decide, by decide, by decide, rfl⟩,
    (fetch_status_error_is_fatal remoteEmptyThen500 500 (.malformed "") (by decide)
      (by decide)).2.2 [3, 4] 1 1 ⟨0, 0⟩ 1 (by decide) (by decide) rfl⟩


/-! ## Startup -/

/-- The run being read only grows until the next blank line. -/
theorem blocksFrom_extends : ∀ (lines cur : List String),
    ∃ b, b ∈ blocksFrom lines cur ∧ cur.length ≤ b.length := by
  intro lines
  induction lines with
  | nil => intro cur; exact ⟨cur, by simp [blocksFrom], le_refl _⟩
  | cons line rest ih =>
    intro cur
    by_cases h : noText line = true
    · exact ⟨cur, by simp [blocksFrom, h], le_refl _⟩
    · obtain ⟨b, hb, hlen⟩ := ih (cur ++ [line])
      refine ⟨b, by simpa [blocksFrom, h] using hb, ?_⟩
      simp at hlen
      omega

/-- When no run of non-blank lines reaches 4 lines, `getKeys` appends no key. -/
theorem getKeysLoop_no_block : ∀ (lines cur : List String) (keys : List Key),
    (∀ b, b ∈ blocksFrom lines cur → b.length < 4) → getKeysLoop lines cur keys = keys := by
  intro lines
  induction lines with
  | nil => intro cur keys _; rfl
  | cons line rest ih =>
    intro cur keys hno
    by_cases h : noText line = true
    · simp only [getKeysLoop, h]
      exact ih [] keys (fun b hb => hno b (by simp [blocksFrom, h, hb]))
    · have hrest : ∀ b, b ∈ blocksFrom rest (cur ++ [line]) → b.length < 4 :=
        fun b hb => hno b (by simpa [blocksFrom, h] using hb)
      obtain ⟨b, hb, hlen⟩ := blocksFrom_extends rest (cur ++ [line])
      have hlt := hrest b hb
      have hne : ¬ (cur ++ [line]).length = 4 := by omega
      simp only [getKeysLoop, h]
      simp only [Bool.not_false, if_true, hne, if_false]
      exact ih (cur ++ [line]) keys hrest

/-- With no client, every pass only prints the rate-limit line and sleeps. -/
theorem mainLoop_no_client (R : Remote) (fuel : Nat) : ∀ (passes : Nat) (s : Sys),
    mainLoop R [] fuel passes s =
      (none, s, (List.range passes).flatMap (fun _ =>
        [Event.print "all apps are rate limited, will run again after 16m",
          Event.sleep 16])) := by
  intro passes
  induction passes with
  | zero => intro s; rfl
  | succ passes ih =>
    intro s
    simp only [mainLoop, clientLoop, ih]
    simp [after, List.range_succ_eq_map, List.flatMap_map, Function.comp_def]

/-- C8, as stated, fails: for the empty keys file and for a keys file of three non-blank
lines, `makeClients` hands `main` the empty client list, there is no fatal error, and
`main` goes on to sleep. -/
theorem main_empty_keys_counterexample :
    makeClients mkAlways (.content [] none) = .ok [] ∧
      makeClients mkAlways (.content ["k1", "k2", "k3"] none) = .ok [] ∧
      main mkAlways (.content [] none) remoteOnePage 1 1 =
        (none, ⟨0, 0⟩,
          [Event.print "total apps: 0",
            Event.print "all apps are rate limited, will run again after 16m",
            Event.sleep 16]) ∧
      main mkAlways (.content ["k1", "k2", "k3"] none) remoteOnePage 1 1 =
        (none, ⟨0, 0⟩,
          [Event.print "total apps: 0",
            Event.print "all apps are rate limited, will run again after 16m",
            Event.sleep 16]) :=
  ⟨rfl, rfl, by decide, by decide⟩

/-- C8, amended: a keys file that cannot be opened, or whose reading fails after any
values were read, is a fatal startup error, the only event of the run.  When the values
`ReadLine` returns (`lines`; a text line longer than the buffer of the reader counts as
several of them) form only blocks of fewer than 4 consecutive non-blank values, and the
reading ends with `io.EOF`, there is no error: `getKeys` returns no key, `makeClients`
hands `main` the empty client list, and `main` prints "total apps: 0" and then, without
any network request and without ending, prints the rate-limit line and sleeps 16 minutes
in every pass. -/
theorem main_no_credential (mk : String → String → String → String → Except String Client)
    (R : Remote) (lines : List String) (hno : ∀ b, b ∈ blocksOf lines → b.length < 4) :
    getKeys (.content lines none) = .ok [] ∧
      makeClients mk (.content lines none) = .ok [] ∧
      (∀ fuel passes, main mk (.content lines none) R fuel passes =
        (none, ⟨0, 0⟩, Event.print "total apps: 0" ::
          (List.range passes).flatMap (fun _ =>
            [Event.print "all apps are rate limited, will run again after 16m",
              Event.sleep 16]))) ∧
      (∀ fuel passes, main mk .missing R fuel passes =
        (some (Exit.fatal "keys file not found"), ⟨0, 0⟩,
          [Event.fatal "keys file not found"])) ∧
      (∀ ls e fuel passes, main mk (.content ls (some e)) R fuel passes =
        (some (Exit.fatal e), ⟨0, 0⟩, [Event.fatal e])) := by
  have hk : getKeys (.content lines none) = .ok [] := by
    simp only [getKeys]
    rw [getKeysLoop_no_block lines [] [] hno]
  have hm : makeClients mk (.content lines none) = .ok [] := by
    simp only [makeClients, hk, makeClientsLoop]
  refine ⟨hk, hm, ?_, ?_, ?_⟩
  · intro fuel passes
    simp only [main, hm, mainLoop_no_client]
    rfl
  · intro fuel passes
    rfl
  · intro ls e fuel passes
    rfl

/-- C8 amended, instantiated: `ReadLine` returns three key lines, a blank line and two
more key lines. -/
theorem main_no_credential_witness :
    (∀ b, b ∈ blocksOf ["k1", "k2", "k3", " ", "k4", "k5"] → b.length < 4) ∧
      makeClients mkAlways (.content ["k1", "k2", "k3", " ", "k4", "k5"] none) = .ok [] :=
  ⟨by decide,
    (main_no_credential mkAlways remoteOnePage ["k1", "k2", "k3", " ", "k4", "k5"]
      (by decide)).2.1⟩

end Rmdm
